import Mathlib

/-!
Shallow embedding of the zerowrap logging wrapper (package zerowrap and its
otel sub-package), developed to check the natural-language specification of
the repository against the code.  Pure string and data manipulation is
translated directly from the Go source; the two external collaborators that
the wrapper delegates to (the propagation-context storage and the telemetry
SDK's severity scale) are modelled where noted.
-/

set_option maxHeartbeats 1000000

namespace Zerowrap

/-- ASCII uppercase range test, mirroring the explicit range checks
of the Go source (toSnakeCase). -/
def isUpperAscii (c : Char) : Bool := 'A' ≤ c && c ≤ 'Z'

/-- ASCII lowercasing of one character: an uppercase letter gets 32 added to
its code point, exactly as the Go source writes the rune r + 32. -/
def toLowerChar (c : Char) : Char :=
  if isUpperAscii c then Char.ofNat (c.toNat + 32) else c

/-- Lowercasing of a whole string, modelling the strings.ToLower calls of the
source on the ASCII configuration strings they are applied to. -/
def toLowerStr (s : String) : String := String.mk (s.data.map toLowerChar)

/-- The log levels of the underlying engine (zerolog.Level) as used by the
wrapper: seven named severities plus the no-level and disabled markers. -/
inductive Level where
  | trace
  | debug
  | info
  | warn
  | error
  | fatal
  | panic
  | noLevel
  | disabled
deriving DecidableEq, Repr

/-- parseLevel from the source: converts a level string to a level,
case-insensitively, defaulting to info for the empty or an unrecognized
string. -/
def parseLevel (level : String) : Level :=
  let l := toLowerStr level
  if l = "trace" then Level.trace
  else if l = "debug" then Level.debug
  else if l = "info" ∨ l = "" then Level.info
  else if l = "warn" ∨ l = "warning" then Level.warn
  else if l = "error" then Level.error
  else if l = "fatal" then Level.fatal
  else if l = "panic" then Level.panic
  else if l = "disabled" then Level.disabled
  else Level.info

/-- The level names recognized by parseLevel (after lowercasing). -/
def recognizedLevelNames : List String :=
  ["trace", "debug", "info", "warn", "warning", "error", "fatal", "panic", "disabled"]

/-- Index-tracking loop of toSnakeCase from the source: before any rune that is
uppercase and not at the first position a separator is written, and every
uppercase rune is written lowercased (r + 32). -/
def toSnakeCaseAux : Nat → List Char → List Char
  | _, [] => []
  | i, c :: cs =>
    (if 0 < i ∧ isUpperAscii c then ['_'] else []) ++
      toLowerChar c :: toSnakeCaseAux (i + 1) cs

/-- toSnakeCase from the source: converts PascalCase/camelCase to snake_case
character by character, with no acronym awareness. -/
def toSnakeCase (s : String) : String := String.mk (toSnakeCaseAux 0 s.data)

/-- The specification's snake-case rule stated the way the spec words it: first
insert a separator before every uppercase letter that is not the first
character, then lowercase every letter. -/
def insertSeps : List Char → List Char
  | [] => []
  | c :: cs => c :: cs.flatMap (fun d => if isUpperAscii d then ['_', d] else [d])

/-- Spec-side snake-case transliteration, to be compared with toSnakeCase. -/
def snakeSpec (s : String) : String := String.mk ((insertSeps s.data).map toLowerChar)

/-- The runtime value of a Go struct member as far as extraction observes it:
its kind and, for the nilable kinds, whether it is nil. -/
inductive GoValue where
  | str (s : String)
  | intV (n : Int)
  | boolV (b : Bool)
  | ptr (nilFlag : Bool)
  | iface (nilFlag : Bool)
  | slice (nilFlag : Bool)
  | mapV (nilFlag : Bool)
  | funcV (nilFlag : Bool)
  | chanV (nilFlag : Bool)
deriving DecidableEq, Repr

/-- Go reflection kinds distinguished by the extraction code. -/
inductive GoKind where
  | strK
  | intK
  | boolK
  | ptrK
  | ifaceK
  | sliceK
  | mapK
  | funcK
  | chanK
deriving DecidableEq, Repr

/-- reflect.Value.Kind for the embedded values. -/
def GoValue.kind : GoValue → GoKind
  | .str _ => GoKind.strK
  | .intV _ => GoKind.intK
  | .boolV _ => GoKind.boolK
  | .ptr _ => GoKind.ptrK
  | .iface _ => GoKind.ifaceK
  | .slice _ => GoKind.sliceK
  | .mapV _ => GoKind.mapK
  | .funcV _ => GoKind.funcK
  | .chanV _ => GoKind.chanK

/-- reflect.Value.IsNil for the embedded values (false on the non-nilable
kinds, where the Go code never asks). -/
def GoValue.isNil : GoValue → Bool
  | .ptr b => b
  | .iface b => b
  | .slice b => b
  | .mapV b => b
  | .funcV b => b
  | .chanV b => b
  | _ => false

/-- One declared member of a Go struct as reflection presents it to
extractFields: declared name, exportedness, the log and json tag lookups
(Go's StructTag.Get returns the empty string when a tag is absent), and the
member's runtime value. -/
structure StructField where
  name : String
  exported : Bool
  logTag : String
  jsonTag : String
  value : GoValue
deriving DecidableEq, Repr

/-- Characters of a tag before the first comma; together with jsonTagName this
models the source's strings.Split(jsonTag, ",")[0], the json tag value
stripped of trailing serialization options. -/
def takeUntilComma : List Char → List Char
  | [] => []
  | c :: cs => if c = ',' then [] else c :: takeUntilComma cs

/-- The first comma-separated component of a tag string. -/
def jsonTagName (tag : String) : String := String.mk (takeUntilComma tag.data)

/-- The field-name resolution of extractFields, statement for statement from
the source: take the log tag; if it is empty and the json tag is non-empty,
take the json tag's first comma-separated component; if the name is still
empty, take the snake-cased declared name. -/
def resolveName (f : StructField) : String :=
  let name := f.logTag
  let name :=
    if name = "" then
      if f.jsonTag ≠ "" then jsonTagName f.jsonTag else name
    else name
  if name = "" then toSnakeCase f.name else name

/-- The body of the extraction loop for one member: unexported members are
skipped, members resolving to the sentinel name are skipped, members of
pointer or interface kind holding nil are skipped, and every other member
yields its resolved name paired with its value. -/
def fieldEntry (f : StructField) : Option (String × GoValue) :=
  if f.exported = false then none
  else
    let name := resolveName f
    if name = "-" then none
    else if (f.value.kind = GoKind.ptrK ∨ f.value.kind = GoKind.ifaceK) ∧ f.value.isNil then none
    else some (name, f.value)

/-- The extraction loop over the declared members, in declaration order; the
produced association list models the Go map with later entries shadowing
earlier ones under lookup. -/
def extractStruct (fs : List StructField) : List (String × GoValue) :=
  fs.filterMap fieldEntry

/-- The dynamically-typed argument of extractFields as reflection sees it: a
struct, a pointer (possibly nil) to a further value, or a value of any
non-struct non-pointer kind. -/
inductive GoInput where
  | structVal (fields : List StructField)
  | ptr (target : Option GoInput)
  | other (v : GoValue)

/-- extractFields from the source: dereference a pointer once (a nil pointer
gives the empty mapping), then extract only when the value is a struct. -/
def extractFields : GoInput → List (String × GoValue)
  | GoInput.ptr none => []
  | GoInput.ptr (some v) =>
    match v with
    | GoInput.structVal fs => extractStruct fs
    | _ => []
  | GoInput.structVal fs => extractStruct fs
  | GoInput.other _ => []

/-- The rotating-file sink constructed by NewWithFile (lumberjack.Logger),
carrying the rotation bounds the wrapper fills in. -/
structure LumberjackLogger where
  filename : String
  maxSize : Int
  maxBackups : Int
  maxAge : Int
  compress : Bool
deriving DecidableEq, Repr

/-- Output sinks: the standard error stream, a discarding sink, an arbitrary
caller-supplied writer, the console formatter wrapping an inner sink with a
time format, a rotating file sink, and a level-multiplexing fan-out. -/
inductive Writer where
  | stderr
  | discard
  | custom (id : Nat)
  | console (out : Writer) (timeFormat : String)
  | file (lj : LumberjackLogger)
  | multi (ws : List Writer)

/-- Whether a sink is wrapped in the console (human-readable) formatter. -/
def Writer.isConsole : Writer → Bool
  | .console _ _ => true
  | _ => false

/-- The sink underneath an optional console wrapper. -/
def Writer.base : Writer → Writer
  | .console out _ => out
  | w => w

/-- Config from the source: level, format and time-format strings, optional
output writer, caller flag. -/
structure Config where
  level : String
  format : String
  timeFormat : String
  output : Option Writer
  caller : Bool

/-- FileConfig from the source: whether file logging is on, the path, the
three rotation bounds, and the compression flag. -/
structure FileConfig where
  enabled : Bool
  path : String
  maxSize : Int
  maxBackups : Int
  maxAge : Int
  compress : Bool

/-- Go's time.RFC3339 layout string, the default time format. -/
def rfc3339 : String := "2006-01-02T15:04:05Z07:00"

/-- A logger handle: sink, minimum level, attached fields, and the timestamp
and caller-capture flags baked in at construction. -/
structure Logger where
  sink : Writer
  level : Level
  fields : List (String × GoValue)
  timestamp : Bool
  caller : Bool

/-- New from the source: resolve the output (stderr when nil), resolve the
time format (RFC3339 when empty), wrap the output in the console formatter
when the lowercased format is "console" or empty, parse the level, and build
the logger with a timestamp and the optional caller capture. -/
def New (cfg : Config) : Logger :=
  let output := cfg.output.getD Writer.stderr
  let timeFormat := if cfg.timeFormat = "" then rfc3339 else cfg.timeFormat
  let format := toLowerStr cfg.format
  let output :=
    if format = "console" ∨ format = "" then Writer.console output timeFormat else output
  let level := parseLevel cfg.level
  { sink := output, level := level, fields := [], timestamp := true, caller := cfg.caller }

/-- The release action returned by NewWithFile: either the no-op function or
the closing of the constructed file sink. -/
inductive CleanupAction where
  | noop
  | closeFile (lj : LumberjackLogger)
deriving DecidableEq, Repr

/-- NewWithFile from the source: when file logging is off or the path is
empty, exactly New plus a no-op release; otherwise apply the 100/3/28
rotation defaults to zero fields, build the file sink, build the console-or-raw
writer from the same format rules as New, fan out to both, and return the
close action for the file sink.  No error is produced on this path. -/
def NewWithFile (cfg : Config) (fileCfg : FileConfig) :
    Logger × CleanupAction × Option String :=
  if fileCfg.enabled = false ∨ fileCfg.path = "" then
    (New cfg, CleanupAction.noop, none)
  else
    let maxSize := if fileCfg.maxSize = 0 then 100 else fileCfg.maxSize
    let maxBackups := if fileCfg.maxBackups = 0 then 3 else fileCfg.maxBackups
    let maxAge := if fileCfg.maxAge = 0 then 28 else fileCfg.maxAge
    let fileWriter : LumberjackLogger :=
      { filename := fileCfg.path, maxSize := maxSize, maxBackups := maxBackups,
        maxAge := maxAge, compress := fileCfg.compress }
    let consoleOutput := cfg.output.getD Writer.stderr
    let timeFormat := if cfg.timeFormat = "" then rfc3339 else cfg.timeFormat
    let format := toLowerStr cfg.format
    let writers :=
      if format = "console" ∨ format = "" then [Writer.console consoleOutput timeFormat]
      else [consoleOutput]
    let writers := writers ++ [Writer.file fileWriter]
    let logger : Logger :=
      { sink := Writer.multi writers, level := parseLevel cfg.level, fields := [],
        timestamp := true, caller := cfg.caller }
    (logger, CleanupAction.closeFile fileWriter, none)

/-- A Go error value: either a base error with its text, or the wrapping
error produced by fmt.Errorf with a message and the percent-w verb, whose
text is the message, a colon-space, and the inner error's text. -/
inductive GoError where
  | base (text : String)
  | wrapped (msg : String) (inner : GoError)
deriving DecidableEq, Repr

/-- The error's rendered text (the Error method). -/
def GoError.text : GoError → String
  | .base t => t
  | .wrapped m inner => m ++ ": " ++ inner.text

/-- errors.Unwrap: the wrapping produced by fmt.Errorf with percent-w exposes
the inner error; a base error unwraps to nothing. -/
def GoError.unwrap : GoError → Option GoError
  | .base _ => none
  | .wrapped _ inner => some inner

/-- One log emission as issued by the wrapper: severity, message, attached
error text, and the logger's attached fields.  Level filtering by the engine
is out of scope for this layer (spec section 1). -/
structure LogRecord where
  level : Level
  msg : String
  errText : Option String
  fields : List (String × GoValue)
deriving Repr

/-- WrapErr from the source: a nil error returns nil with no emission; a
non-nil error is logged once at error severity with the message, and the
returned error wraps the original under the message. -/
def Logger.WrapErr (l : Logger) (err : Option GoError) (msg : String) :
    Option GoError × List LogRecord :=
  match err with
  | none => (none, [])
  | some e =>
    (some (GoError.wrapped msg e),
     [{ level := Level.error, msg := msg, errText := some e.text, fields := l.fields }])

/-- Modelled from the spec: the propagation context, an immutable chainable
key-value carrier to which this system adds exactly one association, context
to Logger (spec sections 3 and 4.1); the underlying storage lives in the
external logging engine and is not part of src/. -/
inductive GoContext where
  | background
  | withLogger (parent : GoContext) (l : Logger)

/-- The disabled no-op logger handed out when no logger is bound. -/
def disabledLogger : Logger :=
  { sink := Writer.discard, level := Level.disabled, fields := [],
    timestamp := false, caller := false }

/-- WithCtx from the source, with the spec-modelled storage: returns a new
context carrying the logger, leaving the input context untouched. -/
def WithCtx (ctx : GoContext) (l : Logger) : GoContext := GoContext.withLogger ctx l

/-- FromCtx from the source, with the spec-modelled storage: the most recently
bound logger, or the disabled logger when none is bound. -/
def FromCtx : GoContext → Logger
  | GoContext.background => disabledLogger
  | GoContext.withLogger _ l => l

/-- OpenTelemetry log severities are integers; modelled from the OpenTelemetry
Go log API referenced by the otel sub-package. -/
abbrev Severity := Int

/-- SeverityTrace, the alias of SeverityTrace1. -/
def severityTrace : Severity := 1

/-- SeverityDebug, the alias of SeverityDebug1. -/
def severityDebug : Severity := 5

/-- SeverityInfo, the alias of SeverityInfo1. -/
def severityInfo : Severity := 9

/-- SeverityWarn, the alias of SeverityWarn1. -/
def severityWarn : Severity := 13

/-- SeverityError, the alias of SeverityError1. -/
def severityError : Severity := 17

/-- SeverityFatal, the alias of SeverityFatal1. -/
def severityFatal : Severity := 21

/-- SeverityFatal3, the second-highest defined severity tier. -/
def severityFatal3 : Severity := 23

/-- SeverityFatal4, the highest defined severity tier. -/
def severityFatal4 : Severity := 24

/-- Every severity tier the OpenTelemetry log API defines, SeverityTrace1 (1)
through SeverityFatal4 (24); modelled from the SDK's severity scale, which the
telemetry data model fixes as the numbers 1 through 24. -/
def otelSeverities : List Severity :=
  [1, 2, 3, 4, 5, 6, 7, 8, 9, 10, 11, 12, 13, 14, 15, 16, 17, 18, 19, 20, 21, 22, 23, 24]

/-- levelToOTel from the otel sub-package source: the switch mapping each
level to a severity, with SeverityInfo as the default arm. -/
def levelToOTel : Level → Severity
  | Level.trace => severityTrace
  | Level.debug => severityDebug
  | Level.info => severityInfo
  | Level.warn => severityWarn
  | Level.error => severityError
  | Level.fatal => severityFatal
  | Level.panic => severityFatal4
  | _ => severityInfo

/-- Modelled from the spec: the engine's level-name rendering used for the
severity text is the literal level name (spec section 4.6); the rendering
itself lives in the external logging engine and is not part of src/. -/
def levelString : Level → String
  | Level.trace => "trace"
  | Level.debug => "debug"
  | Level.info => "info"
  | Level.warn => "warn"
  | Level.error => "error"
  | Level.fatal => "fatal"
  | Level.panic => "panic"
  | Level.noLevel => ""
  | Level.disabled => "disabled"

/-- The telemetry record the bridge builds: body, severity, severity text. -/
structure OtelRecord where
  body : String
  severity : Severity
  severityText : String
deriving DecidableEq, Repr

/-- Hook.Run from the otel sub-package source: with no bound emitter nothing
is emitted; otherwise one record is built with body equal to the rendered
message, severity from levelToOTel, and severity text from the level name. -/
def hookRun (hasLogger : Bool) (msg : String) (level : Level) : Option OtelRecord :=
  if hasLogger = false then none
  else some { body := msg, severity := levelToOTel level, severityText := levelString level }

/-- The tail of the snake-case loop, at any positive index, equals the
spec-side two-pass rendering of the remaining characters. -/
theorem toSnakeCaseAux_pos :
    ∀ (cs : List Char) (i : Nat), 0 < i →
      toSnakeCaseAux i cs =
        (cs.flatMap (fun d => if isUpperAscii d then ['_', d] else [d])).map toLowerChar := by
  intro cs
  induction cs with
  | nil => intro i hi; rfl
  | cons c cs ih =>
    intro i hi
    have hrec := ih (i + 1) (Nat.succ_pos i)
    by_cases h : isUpperAscii c = true
    · have hu : toLowerChar '_' = '_' := rfl
      simp [toSnakeCaseAux, hi, h, hrec, hu]
    · have hc : toLowerChar c = c := by simp [toLowerChar, h]
      simp [toSnakeCaseAux, hi, h, hrec, hc]

/-- The code's single-pass snake-casing agrees with the spec's two-pass rule
on every string. -/
theorem toSnakeCase_eq_snakeSpec (s : String) : toSnakeCase s = snakeSpec s := by
  cases s with
  | mk data =>
    cases data with
    | nil => rfl
    | cons c cs =>
      show String.mk (toSnakeCaseAux 0 (c :: cs)) =
        String.mk ((insertSeps (c :: cs)).map toLowerChar)
      simp [toSnakeCaseAux, insertSeps, toSnakeCaseAux_pos cs 1 (by decide)]

/-- C2: the snake-case transliteration used for field-name derivation inserts
a separator before every uppercase letter that is not the first character and
lowercases every letter (proved as agreement with the spec-side rule snakeSpec
on every string); in particular UserID maps to user_i_d, RequestID to
request_i_d, and IP to i_p. -/
theorem snake_case_transliteration :
    (∀ s : String, toSnakeCase s = snakeSpec s) ∧
    (toSnakeCase "UserID" = "user_i_d" ∧
     toSnakeCase "RequestID" = "request_i_d" ∧
     toSnakeCase "IP" = "i_p") :=
  ⟨toSnakeCase_eq_snakeSpec, by decide⟩

/-- Level parsing looks only at the lowercased level string. -/
theorem parseLevel_lower_congr (s t : String) (h : toLowerStr s = toLowerStr t) :
    parseLevel s = parseLevel t := by
  unfold parseLevel
  rw [h]

/-- A level string whose lowercasing is not one of the recognized names parses
to info (this includes the empty string). -/
theorem parseLevel_unrecognized (s : String)
    (h : toLowerStr s ∉ recognizedLevelNames) : parseLevel s = Level.info := by
  unfold parseLevel
  simp only [recognizedLevelNames, List.mem_cons, List.not_mem_nil, or_false, not_or] at h
  obtain ⟨h1, h2, h3, h4, h5, h6, h7, h8, h9⟩ := h
  simp [h1, h2, h3, h4, h5, h6, h7, h8, h9]

/-- C8: level-name parsing is case-insensitive (it depends only on the
lowercased string), recognizes exactly trace, debug, info, warn and warning,
error, fatal, panic, and disabled, and every unrecognized or empty level
string parses to info. -/
theorem parseLevel_spec :
    (∀ s t : String, toLowerStr s = toLowerStr t → parseLevel s = parseLevel t) ∧
    (parseLevel "trace" = Level.trace ∧
     parseLevel "debug" = Level.debug ∧
     parseLevel "info" = Level.info ∧
     parseLevel "warn" = Level.warn ∧
     parseLevel "warning" = Level.warn ∧
     parseLevel "error" = Level.error ∧
     parseLevel "fatal" = Level.fatal ∧
     parseLevel "panic" = Level.panic ∧
     parseLevel "disabled" = Level.disabled ∧
     parseLevel "TRACE" = Level.trace ∧
     parseLevel "Warning" = Level.warn ∧
     parseLevel "" = Level.info) ∧
    (∀ s : String, toLowerStr s ∉ recognizedLevelNames → parseLevel s = Level.info) :=
  ⟨parseLevel_lower_congr, by decide, parseLevel_unrecognized⟩

/-- Witness for C8 at concrete inputs: WARN parses like warn and the
unrecognized name verbose parses to info. -/
theorem parseLevel_spec_witness :
    parseLevel "WARN" = parseLevel "warn" ∧ parseLevel "verbose" = Level.info :=
  ⟨parseLevel_spec.1 "WARN" "warn" (by decide),
   parseLevel_spec.2.2 "verbose" (by decide)⟩

/-- C1 counterexample: for the Config with the invalid (non-empty,
non-console) format string "xml", New does not apply console formatting;
the sink stays the raw standard error stream, refuting the stated default
of console formatting for an invalid format string. -/
theorem new_invalid_format_counterexample :
    ((New { level := "", format := "xml", timeFormat := "", output := none,
            caller := false }).sink).isConsole = false ∧
    (New { level := "", format := "xml", timeFormat := "", output := none,
           caller := false }).sink = Writer.stderr :=
  ⟨rfl, rfl⟩

/-- C1 amended: for every Config passed to New, an empty or invalid level
string yields level info; an empty format string, or any casing of console,
yields console formatting of the sink with the resolved time format; any
other non-empty format string leaves the sink unwrapped (machine-readable
pass-through); an empty time format resolves to the RFC3339 default; and a
nil output resolves to the standard error stream. -/
theorem new_defaults (cfg : Config) :
    (toLowerStr cfg.level ∉ recognizedLevelNames → (New cfg).level = Level.info) ∧
    ((toLowerStr cfg.format = "console" ∨ toLowerStr cfg.format = "") →
      (New cfg).sink = Writer.console (cfg.output.getD Writer.stderr)
        (if cfg.timeFormat = "" then rfc3339 else cfg.timeFormat)) ∧
    ((toLowerStr cfg.format ≠ "console" ∧ toLowerStr cfg.format ≠ "") →
      (New cfg).sink = cfg.output.getD Writer.stderr) ∧
    (cfg.output = none → (New cfg).sink.base = Writer.stderr) := by
  refine ⟨?_, ?_, ?_, ?_⟩
  · intro h
    exact parseLevel_unrecognized cfg.level h
  · intro h
    show (if toLowerStr cfg.format = "console" ∨ toLowerStr cfg.format = "" then
        Writer.console (cfg.output.getD Writer.stderr)
          (if cfg.timeFormat = "" then rfc3339 else cfg.timeFormat)
      else cfg.output.getD Writer.stderr) = _
    rw [if_pos h]
  · intro h
    show (if toLowerStr cfg.format = "console" ∨ toLowerStr cfg.format = "" then
        Writer.console (cfg.output.getD Writer.stderr)
          (if cfg.timeFormat = "" then rfc3339 else cfg.timeFormat)
      else cfg.output.getD Writer.stderr) = _
    rw [if_neg (by simp [h.1, h.2])]
  · intro h
    show Writer.base (if toLowerStr cfg.format = "console" ∨ toLowerStr cfg.format = "" then
        Writer.console (cfg.output.getD Writer.stderr)
          (if cfg.timeFormat = "" then rfc3339 else cfg.timeFormat)
      else cfg.output.getD Writer.stderr) = Writer.stderr
    rw [h]
    split
    · rfl
    · rfl

/-- Witness for the amended C1 at a concrete Config: an unrecognized level
with a cased console format, empty time format and nil output yields level
info and a console-wrapped stderr sink with the RFC3339 time format. -/
theorem new_defaults_witness :
    (New { level := "bogus", format := "Console", timeFormat := "", output := none,
           caller := false }).level = Level.info ∧
    (New { level := "bogus", format := "Console", timeFormat := "", output := none,
           caller := false }).sink = Writer.console Writer.stderr rfc3339 :=
  ⟨(new_defaults _).1 (by decide),
   (new_defaults ⟨"bogus", "Console", "", none, false⟩).2.1 (Or.inl (by decide))⟩

/-- C3 counterexample: the panic level maps to SeverityFatal4 = 24, which is
the maximum of the SDK's severity scale and in particular not the
highest-but-one tier SeverityFatal3 = 23, refuting the stated target tier. -/
theorem levelToOTel_panic_counterexample :
    levelToOTel Level.panic = severityFatal4 ∧
    severityFatal4 ∈ otelSeverities ∧
    otelSeverities.all (fun s => decide (s ≤ severityFatal4)) = true ∧
    severityFatal3 ∈ otelSeverities ∧
    severityFatal3 < severityFatal4 ∧
    otelSeverities.all (fun s => decide (s = severityFatal4 ∨ s ≤ severityFatal3)) = true ∧
    levelToOTel Level.panic ≠ severityFatal3 := by
  decide

/-- C3 amended: the bridge emits one record per event with body the message,
severity from the ordinal mapping trace to trace, debug to debug, info to
info, warn to warn, error to error, fatal to fatal, and panic to
SeverityFatal4, the SDK's highest severity tier, a tier distinct from the
SeverityFatal tier used for fatal; the severity text is the literal level
name. -/
theorem hookRun_severity_mapping :
    (∀ (msg : String) (level : Level),
      hookRun true msg level =
        some { body := msg, severity := levelToOTel level,
               severityText := levelString level } ∧
      hookRun false msg level = none) ∧
    (levelToOTel Level.trace = severityTrace ∧
     levelToOTel Level.debug = severityDebug ∧
     levelToOTel Level.info = severityInfo ∧
     levelToOTel Level.warn = severityWarn ∧
     levelToOTel Level.error = severityError ∧
     levelToOTel Level.fatal = severityFatal ∧
     levelToOTel Level.panic = severityFatal4 ∧
     levelToOTel Level.fatal ≠ levelToOTel Level.panic ∧
     otelSeverities.all (fun s => decide (s ≤ levelToOTel Level.panic)) = true) ∧
    (levelString Level.trace = "trace" ∧
     levelString Level.debug = "debug" ∧
     levelString Level.info = "info" ∧
     levelString Level.warn = "warn" ∧
     levelString Level.error = "error" ∧
     levelString Level.fatal = "fatal" ∧
     levelString Level.panic = "panic") :=
  ⟨fun msg level => ⟨rfl, rfl⟩, by decide, by decide⟩

/-- C4: binding a Logger into a context with WithCtx and retrieving it with
FromCtx returns the very logger that was bound, hence a handle with the same
level and the same attached fields. -/
theorem ctx_roundtrip (ctx : GoContext) (l : Logger) :
    FromCtx (WithCtx ctx l) = l ∧
    (FromCtx (WithCtx ctx l)).level = l.level ∧
    (FromCtx (WithCtx ctx l)).fields = l.fields :=
  ⟨rfl, rfl, rfl⟩

/-- C5: WrapErr on a nil error returns nil and emits nothing; on a non-nil
error with text Y and message X it emits exactly one record at error severity
and returns an error whose text is exactly X, colon-space, Y, and which
unwraps to the original error. -/
theorem wrapErr_spec (l : Logger) (msg : String) (e : GoError) :
    l.WrapErr none msg = (none, []) ∧
    (l.WrapErr (some e) msg).2 =
      [{ level := Level.error, msg := msg, errText := some e.text,
         fields := l.fields }] ∧
    (l.WrapErr (some e) msg).1 = some (GoError.wrapped msg e) ∧
    (GoError.wrapped msg e).text = msg ++ ": " ++ e.text ∧
    (GoError.wrapped msg e).unwrap = some e :=
  ⟨rfl, rfl, rfl, rfl, rfl⟩

/-- C7: extraction on a nil pointer yields the empty mapping, and extraction
on any non-struct value (directly, or behind a pointer) yields the empty
mapping; neither case is an error. -/
theorem extractFields_nil_and_nonstruct :
    extractFields (GoInput.ptr none) = [] ∧
    (∀ v : GoValue, extractFields (GoInput.other v) = []) ∧
    (∀ inner : Option GoInput,
      extractFields (GoInput.ptr (some (GoInput.ptr inner))) = []) ∧
    (∀ v : GoValue, extractFields (GoInput.ptr (some (GoInput.other v))) = []) :=
  ⟨rfl, fun _ => rfl, fun _ => rfl, fun _ => rfl⟩

/-- A member whose resolved name is the sentinel contributes no entry. -/
theorem fieldEntry_dash (f : StructField) (h : resolveName f = "-") :
    fieldEntry f = none := by
  unfold fieldEntry
  by_cases he : f.exported = false
  · simp [he]
  · simp [he, h]

/-- Dropping the sentinel-named members from a struct does not change the
extracted mapping: they are excluded entirely by the loop. -/
theorem extractStruct_filter_dash (fs : List StructField) :
    extractStruct fs = extractStruct (fs.filter (fun f => resolveName f ≠ "-")) := by
  induction fs with
  | nil => rfl
  | cons f fs ih =>
    by_cases h : resolveName f = "-"
    · simp [extractStruct, List.filter_cons, h, fieldEntry_dash f h] at ih ⊢
      exact ih
    · simp [extractStruct, List.filter_cons, h] at ih ⊢
      rw [List.filterMap_cons, List.filterMap_cons]
      cases hfe : fieldEntry f with
      | none => simpa [hfe] using ih
      | some p => simpa [hfe] using ih

/-- C6: the resolved field name follows the precedence log tag, then json tag
stripped of options after a comma, then snake-cased declared name; and a
member whose resolved name is the sentinel dash is excluded entirely from the
result mapping. -/
theorem extract_name_resolution :
    (∀ f : StructField, f.logTag ≠ "" → resolveName f = f.logTag) ∧
    (∀ f : StructField, f.logTag = "" → f.jsonTag ≠ "" →
      jsonTagName f.jsonTag ≠ "" → resolveName f = jsonTagName f.jsonTag) ∧
    (∀ f : StructField, f.logTag = "" → f.jsonTag = "" →
      resolveName f = toSnakeCase f.name) ∧
    (∀ fs : List StructField,
      extractFields (GoInput.structVal fs) =
        extractStruct (fs.filter (fun f => resolveName f ≠ "-"))) := by
  refine ⟨?_, ?_, ?_, ?_⟩
  · intro f h
    simp [resolveName, h]
  · intro f h1 h2 h3
    simp [resolveName, h1, h2, h3]
  · intro f h1 h2
    simp [resolveName, h1, h2]
  · intro fs
    exact extractStruct_filter_dash fs

/-- Witness for C6 at concrete members: the log tag wins over a json tag, the
json tag is stripped of its options, the bare declared name is snake-cased,
and a sentinel-tagged member is excluded from the mapping. -/
theorem extract_name_resolution_witness :
    resolveName ⟨"UserID", true, "user_id", "uid", GoValue.intV 123⟩ = "user_id" ∧
    resolveName ⟨"IP", true, "", "ip_address,omitempty", GoValue.str "x"⟩ = "ip_address" ∧
    resolveName ⟨"RequestID", true, "", "", GoValue.str "r"⟩ = "request_i_d" ∧
    extractFields (GoInput.structVal
        [⟨"Internal", true, "-", "", GoValue.str "secret"⟩,
         ⟨"UserID", true, "user_id", "", GoValue.intV 123⟩]) =
      extractStruct [⟨"UserID", true, "user_id", "", GoValue.intV 123⟩] :=
  ⟨extract_name_resolution.1 _ (by decide),
   extract_name_resolution.2.1 _ (by decide) (by decide) (by decide),
   extract_name_resolution.2.2.1 _ (by decide) (by decide),
   extract_name_resolution.2.2.2
     [⟨"Internal", true, "-", "", GoValue.str "secret"⟩,
      ⟨"UserID", true, "user_id", "", GoValue.intV 123⟩]⟩

/-- C9: when file logging is disabled or the path is empty, NewWithFile is
exactly New plus the no-op release and no error; otherwise the file sink is
built with effective max size 100, backups 3 and age 28 whenever the
corresponding FileConfig field is zero, and the caller-supplied value
otherwise. -/
theorem newWithFile_spec (cfg : Config) (fc : FileConfig) :
    ((fc.enabled = false ∨ fc.path = "") →
      NewWithFile cfg fc = (New cfg, CleanupAction.noop, none)) ∧
    (fc.enabled = true → fc.path ≠ "" →
      (NewWithFile cfg fc).2.1 = CleanupAction.closeFile
        { filename := fc.path,
          maxSize := if fc.maxSize = 0 then 100 else fc.maxSize,
          maxBackups := if fc.maxBackups = 0 then 3 else fc.maxBackups,
          maxAge := if fc.maxAge = 0 then 28 else fc.maxAge,
          compress := fc.compress }) := by
  constructor
  · intro h
    unfold NewWithFile
    rw [if_pos h]
  · intro h1 h2
    unfold NewWithFile
    rw [if_neg (by simp [h1, h2])]

/-- Witness for C9 at concrete inputs: a disabled FileConfig reduces to New
with the no-op release, and an enabled one with all-zero bounds builds the
file sink with the 100, 3, 28 defaults. -/
theorem newWithFile_spec_witness :
    NewWithFile ⟨"", "", "", none, false⟩ ⟨false, "x", 0, 0, 0, false⟩ =
      (New ⟨"", "", "", none, false⟩, CleanupAction.noop, none) ∧
    (NewWithFile ⟨"", "", "", none, false⟩ ⟨true, "x", 0, 0, 0, false⟩).2.1 =
      CleanupAction.closeFile ⟨"x", 100, 3, 28, false⟩ :=
  ⟨(newWithFile_spec _ _).1 (Or.inl rfl),
   (newWithFile_spec ⟨"", "", "", none, false⟩ ⟨true, "x", 0, 0, 0, false⟩).2
     rfl (by decide)⟩

/-- C10: an exported, non-sentinel member is skipped for being nil exactly
when its kind is pointer or interface; a member of any other kind, including
a nil slice, map, function or channel, still yields its entry in the
extracted mapping. -/
theorem extract_nil_skip (fs : List StructField) (f : StructField)
    (hmem : f ∈ fs) (hexp : f.exported = true) (hname : resolveName f ≠ "-") :
    ((f.value.kind = GoKind.ptrK ∨ f.value.kind = GoKind.ifaceK) →
      f.value.isNil = true → fieldEntry f = none) ∧
    (¬(f.value.kind = GoKind.ptrK ∨ f.value.kind = GoKind.ifaceK) →
      (resolveName f, f.value) ∈ extractFields (GoInput.structVal fs)) := by
  constructor
  · intro hk hnil
    simp [fieldEntry, hexp, hname, hk, hnil]
  · intro hk
    have hfe : fieldEntry f = some (resolveName f, f.value) := by
      simp [fieldEntry, hexp, hname, hk]
    show (resolveName f, f.value) ∈ extractStruct fs
    exact List.mem_filterMap.mpr ⟨f, hmem, hfe⟩

/-- Witness for C10 at a concrete struct: a nil slice member is emitted in
the mapping while a nil pointer member in the same struct yields no entry. -/
theorem extract_nil_skip_witness :
    ("tags", GoValue.slice true) ∈
      extractFields (GoInput.structVal
        [⟨"Tags", true, "", "", GoValue.slice true⟩,
         ⟨"Ref", true, "", "", GoValue.ptr true⟩]) ∧
    fieldEntry ⟨"Ref", true, "", "", GoValue.ptr true⟩ = none :=
  ⟨(extract_nil_skip
      [⟨"Tags", true, "", "", GoValue.slice true⟩,
       ⟨"Ref", true, "", "", GoValue.ptr true⟩]
      ⟨"Tags", true, "", "", GoValue.slice true⟩
      (by decide) (by decide) (by decide)).2 (by decide),
   (extract_nil_skip [⟨"Ref", true, "", "", GoValue.ptr true⟩]
      ⟨"Ref", true, "", "", GoValue.ptr true⟩
      (by decide) (by decide) (by decide)).1 (by decide) (by decide)⟩

end Zerowrap
